import Mathlib

/-!
Shallow embedding of the shop-haul repository's caching and gallery layer,
with theorems checking the specification's claims against the code.

Server side (src/server.js, and the extended server variant):
screenshot cache read (`readCacheEntry`), screenshot provider loop
(`fetchScreenshotBuffer`), dataset payload construction
(`buildShopsPayload`), dataset in-memory cache (`isFreshCache`,
`getShopsPayload`) and the `/api/shops` handler.

Client side (public app script): filter/sort/pagination state
(`computeFilteredShops`, `sortShops`, `visibleCount`, `loadMore`,
the filter/sort change listeners) and the image preloader
(`preloadImageWithFallback`).

JavaScript numbers that hold timestamps are modelled as `Int`; byte
buffers as `List Nat`; JS async single-threaded scheduling is modelled by
explicit state machines whose atomic steps are the synchronous segments
between `await` points.
-/

namespace ShopHaul

/-! ### JS string helpers -/

/-- JS whitespace predicate used by `String.prototype.trim`, modelled by
Lean's `Char.isWhitespace`. -/
def jsWs (c : Char) : Bool := c.isWhitespace

/-- Model of `String.prototype.trim`: drop leading and trailing whitespace. -/
def jsTrim (s : String) : String :=
  ⟨((s.data.dropWhile jsWs).reverse.dropWhile jsWs).reverse⟩

/-- Model of `String.prototype.toLowerCase` (character-wise lowering). -/
def jsToLower (s : String) : String :=
  ⟨s.data.map Char.toLower⟩

/-- Model of `String.prototype.startsWith` (prefix test). -/
def strStartsWith (s pre : String) : Bool :=
  pre.data.isPrefixOf s.data

/-- Lexicographic strict comparison of character lists (an executable
mirror of the `List Char` order underlying the `String` order). -/
def charListLt : List Char → List Char → Bool
  | [], [] => false
  | [], _ :: _ => true
  | _ :: _, [] => false
  | a :: as, b :: bs =>
    if a < b then true
    else if b < a then false
    else charListLt as bs

/-- Executable strict comparison of strings. -/
def strLt (a b : String) : Bool := charListLt a.data b.data

/-- Model of `a.localeCompare(b)`: negative when `a` orders before `b`, zero
on equality, positive otherwise.  The locale order is modelled by the
lexicographic `String` order (adequate for the ASCII titles and labels the
app compares). -/
def localeCompare (a b : String) : Int :=
  if strLt a b then -1 else if a = b then 0 else 1

/-- Model of `hay.includes(needle)` on strings (substring test). -/
def jsIncludes (hay needle : String) : Bool :=
  decide (needle.data <:+: hay.data)

/-! ### Shop records

`fetchShopsFromNotion` (src/notion.js) produces items
`{ id, title, url, category, tags, notes, editedAt }`; the server adds a
`screenshot` field.  `editedAt` is a last-edited timestamp, modelled as an
integer epoch value (the client compares them through `new Date(...)`
subtraction). -/

structure NotionItem where
  id : String
  title : String
  url : String
  category : String
  tags : List String
  notes : String
  editedAt : Int
deriving DecidableEq, Repr

/-- A shop as served by `/api/shops` and consumed by the client: a Notion
item spread together with the added `screenshot` field. -/
structure Shop where
  id : String
  title : String
  url : String
  category : String
  tags : List String
  notes : String
  editedAt : Int
  screenshot : String
deriving DecidableEq, Repr

/-! ### Client gallery state (public app script) -/

/-- `const PAGE_SIZE = 12`. -/
def PAGE_SIZE : Nat := 12

/-- The client module state that the filter, sort and pagination logic
reads and writes: `allShops`, `filteredShops`, `activeCategory`,
`activeTag`, `activeSummary`, `activeSort`, `currentPage`. -/
structure GalleryState where
  allShops : List Shop
  filteredShops : List Shop
  activeCategory : String
  activeTag : String
  activeSummary : String
  activeSort : String
  currentPage : Nat
deriving DecidableEq, Repr

/-- `normalizeText`: `String(value || "").toLowerCase().trim()`. -/
def normalizeText (value : String) : String :=
  jsTrim (jsToLower value)

/-- `sortShops`: copies the list and sorts it with the comparator selected
by `activeSort`.  `Array.prototype.sort` is a stable sort (ES2019); a
stable sort for a total comparator is modelled by `List.insertionSort`
with the relation `comparator a b ≤ 0`. -/
def sortShops (activeSort : String) (shops : List Shop) : List Shop :=
  if activeSort = "az" then
    List.insertionSort (fun a b => localeCompare a.title b.title ≤ 0) shops
  else if activeSort = "za" then
    List.insertionSort (fun a b => localeCompare b.title a.title ≤ 0) shops
  else if activeSort = "oldest" then
    List.insertionSort (fun a b : Shop => a.editedAt - b.editedAt ≤ 0) shops
  else
    List.insertionSort (fun a b : Shop => b.editedAt - a.editedAt ≤ 0) shops

/-- `computeFilteredShops`: applies the category, tag and summary filters
(each only when not in its "all"/empty sentinel state) and sorts. -/
def computeFilteredShops (s : GalleryState) : List Shop :=
  let summaryQuery := normalizeText s.activeSummary
  let items := s.allShops
  let items :=
    if s.activeCategory ≠ "all" then
      items.filter (fun shop => normalizeText shop.category = normalizeText s.activeCategory)
    else items
  let items :=
    if s.activeTag ≠ "all" then
      items.filter (fun shop => (shop.tags.map normalizeText).contains (normalizeText s.activeTag))
    else items
  let items :=
    if summaryQuery ≠ "" then
      items.filter (fun shop => jsIncludes (normalizeText shop.notes) summaryQuery)
    else items
  sortShops s.activeSort items

/-- `visibleCount()`: `Math.min(filteredShops.length, currentPage * PAGE_SIZE)`. -/
def visibleCount (s : GalleryState) : Nat :=
  min s.filteredShops.length (s.currentPage * PAGE_SIZE)

/-- `visibleShops()`: `filteredShops.slice(0, visibleCount())`. -/
def visibleShops (s : GalleryState) : List Shop :=
  s.filteredShops.take (visibleCount s)

/-- `hasMoreShops()`: `visibleCount() < filteredShops.length`. -/
def hasMoreShops (s : GalleryState) : Bool :=
  visibleCount s < s.filteredShops.length

/-- `refreshAndRender(resetPage)`: optionally resets `currentPage` to 1,
then recomputes `filteredShops` (rendering itself has no further effect on
this state). -/
def refreshAndRender (resetPage : Bool) (s : GalleryState) : GalleryState :=
  let s := if resetPage then { s with currentPage := 1 } else s
  { s with filteredShops := computeFilteredShops s }

/-- `loadMore()`: increments `currentPage` iff `hasMoreShops()`. -/
def loadMore (s : GalleryState) : GalleryState :=
  if hasMoreShops s then { s with currentPage := s.currentPage + 1 } else s

/-- The category `change` listener: sets `activeCategory`, then
`refreshAndRender(true)`. -/
def onCategoryChange (v : String) (s : GalleryState) : GalleryState :=
  refreshAndRender true { s with activeCategory := v }

/-- The tag `change` listener: sets `activeTag`, then `refreshAndRender(true)`. -/
def onTagChange (v : String) (s : GalleryState) : GalleryState :=
  refreshAndRender true { s with activeTag := v }

/-- The summary `input` listener: sets `activeSummary`, then
`refreshAndRender(true)`. -/
def onSummaryChange (v : String) (s : GalleryState) : GalleryState :=
  refreshAndRender true { s with activeSummary := v }

/-- The sort `change` listener: sets `activeSort`, then `refreshAndRender(true)`. -/
def onSortChange (v : String) (s : GalleryState) : GalleryState :=
  refreshAndRender true { s with activeSort := v }

/-! ### Screenshot cache store (`readCacheEntry`, src/server.js) -/

/-- `screenshotTtlMs` with the default `SCREENSHOT_CACHE_TTL_HOURS = 168`:
`Math.max(1, 168) * 60 * 60 * 1000`. -/
def screenshotTtlMs : Int := 168 * 60 * 60 * 1000

/-- A JSON field value as the metadata validation sees it: absent, a
string, or a number.  (The metadata written by `writeCacheEntry` always
stores a string `contentType` and a numeric `fetchedAt`; other shapes model
corrupt metadata.) -/
inductive JsField where
  | missing
  | str (s : String)
  | num (n : Int)
deriving DecidableEq, Repr

/-- JS truthiness of a field value: `undefined`, `""` and `0` are falsy. -/
def JsField.truthy : JsField → Bool
  | .missing => false
  | .str s => s ≠ ""
  | .num n => n ≠ 0

/-- Model of `Number(x)` on a field value, with `none` for NaN.
Non-numeric strings coerce to NaN; numeric strings are modelled through
`String.toInt?`. -/
def jsToNumber : JsField → Option Int
  | .missing => none
  | .str s => s.toInt?
  | .num n => some n

/-- Model of `String(x)` on a field value. -/
def jsStringOf : JsField → String
  | .missing => "undefined"
  | .str s => s
  | .num n => toString n

/-- The parsed screenshot metadata artifact: `{ contentType, fetchedAt }`. -/
structure RawMeta where
  fetchedAt : JsField
  contentType : JsField
deriving DecidableEq, Repr

/-- What is on storage for one cache key: the metadata artifact (`none`
when the read or `JSON.parse` fails) and the binary artifact (`none` when
its read fails).  Either failure is caught by `readCacheEntry`. -/
structure CacheArtifacts where
  meta : Option RawMeta
  bin : Option (List Nat)
deriving DecidableEq, Repr

/-- `readCacheEntry` for the screenshot cache: reads both artifacts, then
returns `null` on missing/falsy `fetchedAt` or `contentType`, a
content-type not starting with `image/`, a non-finite age, or an age
exceeding the TTL; otherwise returns the stored content type and body. -/
def readCacheEntry (file : CacheArtifacts) (now : Int) : Option (JsField × List Nat) :=
  match file.meta, file.bin with
  | some meta, some bin =>
    if !meta.fetchedAt.truthy || !meta.contentType.truthy then none
    else if !(strStartsWith (jsToLower (jsStringOf meta.contentType)) "image/") then none
    else
      match jsToNumber meta.fetchedAt with
      | none => none
      | some fetchedAt =>
        if now - fetchedAt > screenshotTtlMs then none
        else some (meta.contentType, bin)
  | _, _ => none

/-! ### Screenshot fetcher (`fetchScreenshotBuffer`, src/server.js) -/

/-- The initial value of `lastError`. -/
def defaultScreenshotError : String := "Unknown screenshot error."

/-- What one provider fetch attempt produced: a response
(`ok`/`status`/`content-type` header/body bytes) or a thrown network
error. -/
inductive FetchResult where
  | resp (ok : Bool) (status : Nat) (contentType : Option String) (body : List Nat)
  | thrown (msg : String)
deriving DecidableEq, Repr

/-- The rejection message a provider attempt contributes, or `none` when
the attempt is a usable image. -/
def rejectionMsg : FetchResult → Option String
  | .thrown msg => some msg
  | .resp ok status ct body =>
    if !ok then some ("Provider failed (" ++ toString status ++ ").")
    else
      let contentType := ct.getD "image/jpeg"
      if !(strStartsWith (jsToLower contentType) "image/") then
        some ("Provider returned non-image content (" ++ contentType ++ ").")
      else if body.length = 0 then some "Provider returned an empty image."
      else none

/-- The provider loop of `fetchScreenshotBuffer`.  One list entry per
provider: `none` models a provider whose built upstream URL is falsy (the
loop skips it without touching `lastError`), `some r` the result of
fetching that provider's upstream. -/
def fetchScreenshotBufferLoop : String → List (Option FetchResult) →
    Except String (String × List Nat)
  | lastError, [] => .error lastError
  | lastError, none :: rest => fetchScreenshotBufferLoop lastError rest
  | _lastError, some r :: rest =>
    match r with
    | .thrown msg => fetchScreenshotBufferLoop msg rest
    | .resp ok status ct body =>
      if !ok then
        fetchScreenshotBufferLoop ("Provider failed (" ++ toString status ++ ").") rest
      else
        let contentType := ct.getD "image/jpeg"
        if !(strStartsWith (jsToLower contentType) "image/") then
          fetchScreenshotBufferLoop
            ("Provider returned non-image content (" ++ contentType ++ ").") rest
        else if body.length = 0 then
          fetchScreenshotBufferLoop "Provider returned an empty image." rest
        else .ok (contentType, body)

/-- `fetchScreenshotBuffer`: runs the provider loop starting from the
default `lastError`, throwing the final `lastError` when no provider
yields a usable image. -/
def fetchScreenshotBuffer (attempts : List (Option FetchResult)) :
    Except String (String × List Nat) :=
  fetchScreenshotBufferLoop defaultScreenshotError attempts

/-- The value `lastError` holds after the given attempts have been
processed: each real attempt overwrites it with its rejection message,
skipped providers leave it unchanged. -/
def lastErrorAfter (init : String) (attempts : List (Option FetchResult)) : String :=
  attempts.foldl
    (fun acc a =>
      match a with
      | none => acc
      | some r => (rejectionMsg r).getD acc)
    init

/-! ### Shops payload construction (`buildShopsPayload`, server) -/

/-- `const screenshotVersion = "v3"`. -/
def screenshotVersion : String := "v3"

/-- Hexadecimal digit characters, uppercase as produced by
`encodeURIComponent`. -/
def hexDigit (n : Nat) : Char :=
  "0123456789ABCDEF".data.getD n (Char.ofNat 48)

/-- Percent-encode a single byte, e.g. `37 ↦ "%25"`. -/
def percentByte (b : Nat) : String :=
  ⟨[Char.ofNat 37, hexDigit (b / 16 % 16), hexDigit (b % 16)]⟩

/-- UTF-8 encoding of one character as a byte list. -/
def utf8Bytes (c : Char) : List Nat :=
  let n := c.toNat
  if n < 128 then [n]
  else if n < 2048 then [192 + n / 64, 128 + n % 64]
  else if n < 65536 then [224 + n / 4096, 128 + n / 64 % 64, 128 + n % 64]
  else [240 + n / 262144, 128 + n / 4096 % 64, 128 + n / 64 % 64, 128 + n % 64]

/-- The characters `encodeURIComponent` leaves unescaped besides ASCII
letters and digits: `- _ . ! ~ * ' ( )`. -/
def unreservedMarks : List Char :=
  [Char.ofNat 45, Char.ofNat 95, Char.ofNat 46, Char.ofNat 33, Char.ofNat 126,
   Char.ofNat 42, Char.ofNat 39, Char.ofNat 40, Char.ofNat 41]

/-- Whether `encodeURIComponent` leaves this character unescaped. -/
def isUnreservedChar (c : Char) : Bool :=
  c.isAlpha || c.isDigit || unreservedMarks.contains c

/-- Model of the JS builtin `encodeURIComponent`: unreserved characters
pass through, every other character is UTF-8 percent-encoded. -/
def encodeURIComponent (s : String) : String :=
  String.join (s.data.map fun c =>
    if isUnreservedChar c then ⟨[c]⟩
    else String.join ((utf8Bytes c).map percentByte))

/-- Model of `Array.from(new Set(l))`: deduplicate keeping the first
occurrence of each element, in insertion order. -/
def jsSetDedup (l : List String) : List String :=
  l.foldl (fun acc x => if x ∈ acc then acc else acc ++ [x]) []

/-- The string sort `["b","a"].sort((a, b) => a.localeCompare(b))`,
modelled by the stable `insertionSort` on the comparator relation. -/
def localeSort (l : List String) : List String :=
  List.insertionSort (fun a b => localeCompare a b ≤ 0) l

/-- The `/api/shops` response body built by `buildShopsPayload`. -/
structure ShopsPayload where
  shops : List Shop
  categories : List String
  tags : List String
  count : Nat
  totalRows : Nat
  shopsWithUrl : Nat
  databaseId : String
deriving DecidableEq, Repr, Inhabited

/-- What `fetchShopsFromNotion` resolves with. -/
structure NotionData where
  items : List NotionItem
  totalRows : Nat
  shopsWithUrl : Nat
deriving DecidableEq, Repr

/-- The screenshot URL attached to every shop:
`/api/screenshot?u=<encodeURIComponent(shop.url)>&sv=<screenshotVersion>`. -/
def screenshotUrlFor (url : String) : String :=
  "/api/screenshot?u=" ++ encodeURIComponent url ++ "&sv=" ++ screenshotVersion

/-- `buildShopsPayload`: maps each Notion item to a shop with the added
`screenshot` field, then derives the deduplicated, trimmed, sorted `tags`
and `categories` lists and the counters. -/
def buildShopsPayload (nd : NotionData) (databaseId : String) : ShopsPayload :=
  let payload : List Shop := nd.items.map fun shop =>
    { id := shop.id, title := shop.title, url := shop.url,
      category := shop.category, tags := shop.tags, notes := shop.notes,
      editedAt := shop.editedAt, screenshot := screenshotUrlFor shop.url }
  let tags := localeSort (jsSetDedup
    (((payload.flatMap fun shop => shop.tags).map jsTrim).filter fun t => t ≠ ""))
  let categories := localeSort (jsSetDedup
    ((payload.map fun shop => jsTrim shop.category).filter fun t => t ≠ ""))
  { shops := payload, categories := categories, tags := tags,
    count := payload.length, totalRows := nd.totalRows,
    shopsWithUrl := nd.shopsWithUrl, databaseId := databaseId }

/-! ### Dataset in-memory cache (`shopsCache`, `isFreshCache`,
`getShopsPayload`, extended server)

The dataset cache is the process-wide slot
`{ payload, fetchedAt, inflight }`.  `getShopsPayload` runs synchronously
from its entry to either an early return or the assignment of
`shopsCache.inflight`; only then does it suspend on `await`.  Under the JS
run-to-completion scheduling this synchronous segment is atomic, which the
machine below models as one `arrive` step.  A `complete` step models the
settling of the in-flight `buildShopsPayload()` promise together with its
`then`/`finally` handlers and the resumption of every awaiting caller. -/

/-- `shopsCacheTtlMs` with the default `SHOPS_CACHE_TTL_SECONDS = 300`:
`Math.max(5, 300) * 1000`. -/
def shopsCacheTtlMs : Int := 300 * 1000

/-- The cached part of the dataset slot: `payload` (`null` initially) and
`fetchedAt` (0 initially). -/
structure ShopsCache where
  payload : Option ShopsPayload
  fetchedAt : Int
deriving DecidableEq, Repr

/-- `isFreshCache()`: false when `payload` or `fetchedAt` is falsy,
otherwise `Date.now() - fetchedAt < shopsCacheTtlMs`. -/
def isFreshCache (c : ShopsCache) (now : Int) : Bool :=
  if c.payload.isNone || c.fetchedAt = 0 then false
  else now - c.fetchedAt < shopsCacheTtlMs

/-- How the one in-flight `buildShopsPayload()` settles. -/
inductive FetchOutcome where
  | success (p : ShopsPayload)
  | failure (e : String)
deriving DecidableEq, Repr

/-- What one `getShopsPayload()` call resolves with: payload plus the
`source` tag, or a rejection carrying the fetch error. -/
inductive CallResult where
  | ok (p : ShopsPayload) (source : String)
  | error (e : String)
deriving DecidableEq, Repr

/-- A caller parked on `await shopsCache.inflight`: its id, the flight it
awaits, and whether it is the caller that started that flight (its tag is
`notion-refresh` rather than `memory-inflight`). -/
structure WaitEntry where
  caller : Nat
  flight : Nat
  initiator : Bool
deriving DecidableEq, Repr

/-- The whole process state relevant to `getShopsPayload`: the cache slot,
the in-flight flight id (the `inflight` promise), a fresh-flight counter,
how many `buildShopsPayload()` fetches were ever started, the parked
callers, and the results already delivered. -/
structure DatasetSys where
  cache : ShopsCache
  inflight : Option Nat
  nextFlight : Nat
  fetchesStarted : Nat
  waiting : List WaitEntry
  results : List (Nat × CallResult)
deriving DecidableEq, Repr

/-- The synchronous prefix of one `getShopsPayload()` call at time `now`:
a fresh cache resolves immediately with `memory-fresh`; otherwise the
caller joins the in-flight fetch if one exists, else it starts a new
fetch (`buildShopsPayload()`) and awaits it as its initiator. -/
def arrive (cid : Nat) (now : Int) (s : DatasetSys) : DatasetSys :=
  if isFreshCache s.cache now then
    { s with results :=
        (cid, CallResult.ok (s.cache.payload.getD default) "memory-fresh") :: s.results }
  else
    match s.inflight with
    | some f =>
      { s with waiting := { caller := cid, flight := f, initiator := false } :: s.waiting }
    | none =>
      { s with
        inflight := some s.nextFlight,
        nextFlight := s.nextFlight + 1,
        fetchesStarted := s.fetchesStarted + 1,
        waiting := { caller := cid, flight := s.nextFlight, initiator := true } :: s.waiting }

/-- What an awaiting caller resolves with once the flight settles: the
initiator's success is tagged `notion-refresh`, a joiner's
`memory-inflight`; a failure rejects both with the same error. -/
def deliver (o : FetchOutcome) (initiator : Bool) : CallResult :=
  match o with
  | .success p => .ok p (if initiator then "notion-refresh" else "memory-inflight")
  | .failure e => .error e

/-- The settling at time `now` of the in-flight fetch with outcome `o`:
on success the `then` handler stores the payload and stamps `fetchedAt`;
the `finally` handler clears `inflight` in both cases; every caller
awaiting this flight resumes with the flight's one outcome. -/
def complete (now : Int) (o : FetchOutcome) (s : DatasetSys) : DatasetSys :=
  match s.inflight with
  | none => s
  | some f =>
    let cache :=
      match o with
      | .success p => { payload := some p, fetchedAt := now }
      | .failure _ => s.cache
    { s with
      cache := cache,
      inflight := none,
      results :=
        ((s.waiting.filter fun w => w.flight = f).map
          fun w => (w.caller, deliver o w.initiator)) ++ s.results,
      waiting := s.waiting.filter fun w => w.flight ≠ f }

/-- One `arrive` step for each listed `(caller, time)` in order. -/
def arriveAll (arrivals : List (Nat × Int)) (s : DatasetSys) : DatasetSys :=
  arrivals.foldl (fun s a => arrive a.1 a.2 s) s

/-- The `/api/shops` response. -/
inductive ShopsHttpResponse where
  | okJson (p : ShopsPayload) (cacheTag : String)
  | error500 (details : String)
deriving DecidableEq, Repr

/-- The `/api/shops` handler around one settled `getShopsPayload()` call:
a resolved call is served as JSON with its source tag in `x-shops-cache`;
on rejection the catch block serves `shopsCache.payload` (as read at that
moment) tagged `memory-stale-on-error` when present, else responds 500
with the error details. -/
def apiShopsRespond (r : CallResult) (cacheAtCatch : ShopsCache) : ShopsHttpResponse :=
  match r with
  | .ok p src => .okJson p src
  | .error e =>
    match cacheAtCatch.payload with
    | some p => .okJson p "memory-stale-on-error"
    | none => .error500 e

/-! ### Image preloader (`preloadImageWithFallback`, client)

The promise executor installs a timeout calling `finish`, an `onload`
handler and an `onerror` handler on a fresh `Image`.  `finish` resolves
the promise exactly once (`settled` guard); the executor never calls a
reject function, so the promise can only resolve.  The state machine
below has one step per event the browser can deliver: the timer firing,
a load success, or a load error on the current `img.src`. -/

/-- The closure state of one `preloadImageWithFallback` call: the
`settled` flag, whether the timeout is still pending (`clearTimeout` and
firing both clear it), the current `img.src`, and how many times `resolve`
has been invoked. -/
structure PreloadState where
  settled : Bool
  timerActive : Bool
  src : String
  resolveCount : Nat
deriving DecidableEq, Repr

/-- The state right after the executor ran: timer armed, `img.src` set to
the primary URL, not settled. -/
def preloadInit (primaryUrl : String) : PreloadState :=
  { settled := false, timerActive := true, src := primaryUrl, resolveCount := 0 }

/-- `finish()`: returns if already settled, else marks settled and
resolves. -/
def finish (s : PreloadState) : PreloadState :=
  if s.settled then s
  else { s with settled := true, resolveCount := s.resolveCount + 1 }

/-- An event the browser can deliver to this closure. -/
inductive ImgEvent where
  | timerFires
  | onload
  | onerror
deriving DecidableEq, Repr

/-- One event step.  The timer firing calls `finish`; `onload` clears the
timer and calls `finish`; `onerror` switches `img.src` to the fallback URL
once (when a fallback is given and not already in use) and otherwise
clears the timer and calls `finish`. -/
def preloadStep (fallbackUrl : String) (s : PreloadState) : ImgEvent → PreloadState
  | .timerFires => if s.timerActive then finish { s with timerActive := false } else s
  | .onload => finish { s with timerActive := false }
  | .onerror =>
    if fallbackUrl ≠ "" ∧ s.src ≠ fallbackUrl then { s with src := fallbackUrl }
    else finish { s with timerActive := false }

/-- The state after the browser delivered the given event sequence. -/
def preloadRun (primaryUrl fallbackUrl : String) (events : List ImgEvent) : PreloadState :=
  events.foldl (preloadStep fallbackUrl) (preloadInit primaryUrl)

/-! ### Concrete example values -/

/-- A shop with the given title and every other field blank. -/
def exTitleShop (t : String) : Shop :=
  { id := "", title := t, url := "", category := "", tags := [], notes := "",
    editedAt := 0, screenshot := "" }

/-- The claim's title example `["Zed", "Acme", "Mono"]`. -/
def exampleTitles : List Shop :=
  [exTitleShop "Zed", exTitleShop "Acme", exTitleShop "Mono"]

/-- The expected `az` order `["Acme", "Mono", "Zed"]`. -/
def exampleTitlesSorted : List Shop :=
  [exTitleShop "Acme", exTitleShop "Mono", exTitleShop "Zed"]

/-- A gallery state with 30 filtered shops on page 1. -/
def thirtyState : GalleryState :=
  { allShops := [], filteredShops := List.replicate 30 (exTitleShop "s"),
    activeCategory := "all", activeTag := "all", activeSummary := "",
    activeSort := "recent", currentPage := 1 }

/-- A concrete, valid screenshot cache metadata artifact: fetched at
time 5 with an image content type. -/
def exampleMeta : RawMeta :=
  { fetchedAt := JsField.num 5, contentType := JsField.str "image/png" }

/-- Concrete stored artifacts for one screenshot cache key. -/
def exampleArtifacts : CacheArtifacts :=
  { meta := some exampleMeta, bin := some [7, 8] }

/-- A dataset cache slot holding a payload fetched at time 3. -/
def exampleShopsCache : ShopsCache :=
  { payload := some default, fetchedAt := 3 }

/-- Two rejected provider attempts (an HTTP 500, then a thrown network
error) around a skipped provider. -/
def exampleAttempts : List (Option FetchResult) :=
  [some (FetchResult.resp false 500 none []), none, some (FetchResult.thrown "boom")]

/-- A concrete Notion item. -/
def exampleNotionItem : NotionItem :=
  { id := "p1", title := "Store", url := "https://x.io", category := " Food ",
    tags := [" a ", "b", "a"], notes := "n", editedAt := 42 }

/-- A concrete collaborator result with one item. -/
def exampleNotionData : NotionData :=
  { items := [exampleNotionItem], totalRows := 1, shopsWithUrl := 1 }

/-- The shop `buildShopsPayload` derives from `exampleNotionItem`. -/
def exampleShop : Shop :=
  { id := "p1", title := "Store", url := "https://x.io", category := " Food ",
    tags := [" a ", "b", "a"], notes := "n", editedAt := 42,
    screenshot := screenshotUrlFor "https://x.io" }

/-- A process state whose cache slot holds a payload fetched at time 3,
with no fetch in flight. -/
def exampleDatasetSys : DatasetSys :=
  { cache := exampleShopsCache, inflight := none, nextFlight := 0,
    fetchesStarted := 0, waiting := [], results := [] }

/-- A process state with an empty cache slot and no fetch in flight (the
state at process start). -/
def emptyDatasetSys : DatasetSys :=
  { cache := { payload := none, fetchedAt := 0 }, inflight := none, nextFlight := 0,
    fetchesStarted := 0, waiting := [], results := [] }

/-! ### Helper lemmas -/

/-- `charListLt` decides the lexicographic `List Char` order (`List.Lex`). -/
lemma charListLt_iff : ∀ as bs : List Char, charListLt as bs = true ↔ as < bs
  | [], [] => by
    constructor
    · intro h
      exact absurd h (by simp [charListLt])
    · intro h
      cases h
  | [], _ :: _ => by
    simp only [charListLt, true_iff]
    exact List.Lex.nil
  | _ :: _, [] => by
    constructor
    · intro h
      exact absurd h (by simp [charListLt])
    · intro h
      cases h
  | a :: as, b :: bs => by
    unfold charListLt
    split_ifs with h1 h2
    · simp only [true_iff]
      exact List.Lex.rel h1
    · simp only [false_iff]
      intro h
      cases h with
      | cons h3 => exact absurd h2 (lt_irrefl a)
      | rel h3 => exact absurd h3 (asymm h2)
    · rw [charListLt_iff as bs]
      have hab : a = b := le_antisymm (le_of_not_lt h2) (le_of_not_lt h1)
      subst hab
      constructor
      · intro h
        exact List.Lex.cons h
      · intro h
        cases h with
        | cons h3 => exact h3
        | rel h3 => exact absurd h3 h1

/-- `strLt` decides the `String` order. -/
lemma strLt_iff (a b : String) : strLt a b = true ↔ a < b := by
  rw [String.lt_iff_toList_lt]
  exact charListLt_iff a.data b.data

/-- The comparator relation `a.localeCompare(b) <= 0` is the string
order. -/
lemma localeCompare_le_zero (a b : String) : localeCompare a b ≤ 0 ↔ a ≤ b := by
  unfold localeCompare
  split_ifs with h1 h2
  · simp [le_of_lt ((strLt_iff a b).mp h1)]
  · simp [le_of_eq h2]
  · constructor
    · intro h
      exact absurd h (by norm_num)
    · intro h
      rcases lt_or_eq_of_le h with h3 | h3
      · exact absurd ((strLt_iff a b).mpr h3) (by simp [h1])
      · exact absurd h3 h2

/-- Unfolding `sortShops` at sort key `recent` (the default comparator). -/
lemma sortShops_recent (l : List Shop) :
    sortShops "recent" l =
      List.insertionSort (fun a b : Shop => b.editedAt - a.editedAt ≤ 0) l := rfl

/-- Unfolding `sortShops` at sort key `oldest`. -/
lemma sortShops_oldest (l : List Shop) :
    sortShops "oldest" l =
      List.insertionSort (fun a b : Shop => a.editedAt - b.editedAt ≤ 0) l := rfl

/-- Unfolding `sortShops` at sort key `az`. -/
lemma sortShops_az (l : List Shop) :
    sortShops "az" l =
      List.insertionSort (fun a b : Shop => localeCompare a.title b.title ≤ 0) l := rfl

/-- Unfolding `sortShops` at sort key `za`. -/
lemma sortShops_za (l : List Shop) :
    sortShops "za" l =
      List.insertionSort (fun a b : Shop => localeCompare b.title a.title ≤ 0) l := rfl

/-! ### Claim theorems -/

/-- C6: for every gallery state, the number of visible items is
`min(filteredShops.length, currentPage * PAGE_SIZE)` with `PAGE_SIZE = 12`;
`loadMore` increments `currentPage` by exactly 1 iff
`visibleCount < filteredCount` and is a no-op otherwise; with 30 filtered
items the visible count progresses 12 → 24 → 30 over two `loadMore`
calls and a third `loadMore` changes nothing. -/
theorem claim_C6_pagination (s : GalleryState) :
    visibleCount s = min s.filteredShops.length (s.currentPage * PAGE_SIZE) ∧
    (visibleShops s).length = visibleCount s ∧
    ((loadMore s).currentPage = s.currentPage + 1 ↔
      visibleCount s < s.filteredShops.length) ∧
    (visibleCount s < s.filteredShops.length →
      loadMore s = { s with currentPage := s.currentPage + 1 }) ∧
    (¬ visibleCount s < s.filteredShops.length → loadMore s = s) ∧
    visibleCount thirtyState = 12 ∧
    visibleCount (loadMore thirtyState) = 24 ∧
    visibleCount (loadMore (loadMore thirtyState)) = 30 ∧
    loadMore (loadMore (loadMore thirtyState)) = loadMore (loadMore thirtyState) := by
  refine ⟨rfl, ?_, ?_, ?_, ?_, by decide, by decide, by decide, by decide⟩
  · simp only [visibleShops, List.length_take, visibleCount]
    omega
  · unfold loadMore hasMoreShops
    split <;> rename_i h <;> simp_all
  · intro h
    unfold loadMore hasMoreShops
    simp [h]
  · intro h
    unfold loadMore hasMoreShops
    simp [h]

/-- Witness for C6 at a concrete input: with 30 filtered items on page 1
the visible count is below the filtered count and `loadMore` moves to
page 2. -/
theorem claim_C6_pagination_witness :
    visibleCount thirtyState < thirtyState.filteredShops.length ∧
    loadMore thirtyState = { thirtyState with currentPage := thirtyState.currentPage + 1 } :=
  ⟨by decide, (claim_C6_pagination thirtyState).2.2.2.1 (by decide)⟩

/-- C7: each filter change listener (category, tag, summary) and the sort
change listener resets `currentPage` to 1 for every prior state, while
`loadMore` changes only the page, leaving the active filters and the sort
untouched. -/
theorem claim_C7_filter_reset (s : GalleryState) (v : String) :
    (onCategoryChange v s).currentPage = 1 ∧
    (onTagChange v s).currentPage = 1 ∧
    (onSummaryChange v s).currentPage = 1 ∧
    (onSortChange v s).currentPage = 1 ∧
    (loadMore s).activeCategory = s.activeCategory ∧
    (loadMore s).activeTag = s.activeTag ∧
    (loadMore s).activeSummary = s.activeSummary ∧
    (loadMore s).activeSort = s.activeSort := by
  refine ⟨rfl, rfl, rfl, rfl, ?_, ?_, ?_, ?_⟩ <;>
    (unfold loadMore; split <;> rfl)

/-- C8: `sortShops` permutes its input and orders it by edit timestamp
descending for `recent`, ascending for `oldest`, and by locale title
comparison ascending for `az`, descending for `za`; items with equal sort
keys retain their prior relative order (stability); on the titles
`["Zed", "Acme", "Mono"]`, `az` yields `["Acme", "Mono", "Zed"]` and `za`
the reverse. -/
theorem claim_C8_sorting (l : List Shop) (a b : Shop) :
    (sortShops "recent" l).Perm l ∧
    (sortShops "recent" l).Pairwise (fun x y => y.editedAt ≤ x.editedAt) ∧
    (sortShops "oldest" l).Perm l ∧
    (sortShops "oldest" l).Pairwise (fun x y => x.editedAt ≤ y.editedAt) ∧
    (sortShops "az" l).Perm l ∧
    (sortShops "az" l).Pairwise (fun x y => x.title ≤ y.title) ∧
    (sortShops "za" l).Perm l ∧
    (sortShops "za" l).Pairwise (fun x y => y.title ≤ x.title) ∧
    (a.title = b.title → List.Sublist [a, b] l → List.Sublist [a, b] (sortShops "az" l)) ∧
    (a.title = b.title → List.Sublist [a, b] l → List.Sublist [a, b] (sortShops "za" l)) ∧
    (a.editedAt = b.editedAt → List.Sublist [a, b] l → List.Sublist [a, b] (sortShops "recent" l)) ∧
    (a.editedAt = b.editedAt → List.Sublist [a, b] l → List.Sublist [a, b] (sortShops "oldest" l)) ∧
    sortShops "az" exampleTitles = exampleTitlesSorted ∧
    sortShops "za" exampleTitles = exampleTitlesSorted.reverse := by
  have hTransE : ∀ r : Shop → Shop → Prop,
      (∀ x y, r x y ↔ x.editedAt ≤ y.editedAt) → IsTrans Shop r := by
    intro r h
    exact ⟨fun x y z hxy hyz => (h x z).mpr (le_trans ((h x y).mp hxy) ((h y z).mp hyz))⟩
  refine ⟨?_, ?_, ?_, ?_, ?_, ?_, ?_, ?_, ?_, ?_, ?_, ?_, by decide, by decide⟩
  · exact List.perm_insertionSort _ l
  · rw [sortShops_recent]
    haveI : IsTotal Shop (fun x y : Shop => y.editedAt - x.editedAt ≤ 0) :=
      ⟨fun x y => by omega⟩
    haveI : IsTrans Shop (fun x y : Shop => y.editedAt - x.editedAt ≤ 0) :=
      ⟨fun x y z => by omega⟩
    have h := List.sorted_insertionSort
      (fun x y : Shop => y.editedAt - x.editedAt ≤ 0) l
    exact (List.Pairwise.imp (by omega) h)
  · exact List.perm_insertionSort _ l
  · rw [sortShops_oldest]
    haveI : IsTotal Shop (fun x y : Shop => x.editedAt - y.editedAt ≤ 0) :=
      ⟨fun x y => by omega⟩
    haveI : IsTrans Shop (fun x y : Shop => x.editedAt - y.editedAt ≤ 0) :=
      ⟨fun x y z => by omega⟩
    have h := List.sorted_insertionSort
      (fun x y : Shop => x.editedAt - y.editedAt ≤ 0) l
    exact (List.Pairwise.imp (by omega) h)
  · exact List.perm_insertionSort _ l
  · rw [sortShops_az]
    haveI : IsTotal Shop (fun x y : Shop => localeCompare x.title y.title ≤ 0) :=
      ⟨fun x y => by
        rcases le_total x.title y.title with h | h
        · exact Or.inl ((localeCompare_le_zero _ _).mpr h)
        · exact Or.inr ((localeCompare_le_zero _ _).mpr h)⟩
    haveI : IsTrans Shop (fun x y : Shop => localeCompare x.title y.title ≤ 0) :=
      ⟨fun x y z hxy hyz => (localeCompare_le_zero _ _).mpr
        (le_trans ((localeCompare_le_zero _ _).mp hxy)
          ((localeCompare_le_zero _ _).mp hyz))⟩
    have h := List.sorted_insertionSort
      (fun x y : Shop => localeCompare x.title y.title ≤ 0) l
    exact List.Pairwise.imp (fun hxy => (localeCompare_le_zero _ _).mp hxy) h
  · exact List.perm_insertionSort _ l
  · rw [sortShops_za]
    haveI : IsTotal Shop (fun x y : Shop => localeCompare y.title x.title ≤ 0) :=
      ⟨fun x y => by
        rcases le_total y.title x.title with h | h
        · exact Or.inl ((localeCompare_le_zero _ _).mpr h)
        · exact Or.inr ((localeCompare_le_zero _ _).mpr h)⟩
    haveI : IsTrans Shop (fun x y : Shop => localeCompare y.title x.title ≤ 0) :=
      ⟨fun x y z hxy hyz => (localeCompare_le_zero _ _).mpr
        (le_trans ((localeCompare_le_zero _ _).mp hyz)
          ((localeCompare_le_zero _ _).mp hxy))⟩
    have h := List.sorted_insertionSort
      (fun x y : Shop => localeCompare y.title x.title ≤ 0) l
    exact List.Pairwise.imp (fun hxy => (localeCompare_le_zero _ _).mp hxy) h
  · intro ht hsub
    rw [sortShops_az]
    exact List.pair_sublist_insertionSort
      ((localeCompare_le_zero _ _).mpr (le_of_eq ht)) hsub
  · intro ht hsub
    rw [sortShops_za]
    exact List.pair_sublist_insertionSort
      ((localeCompare_le_zero _ _).mpr (le_of_eq ht.symm)) hsub
  · intro ht hsub
    rw [sortShops_recent]
    exact List.pair_sublist_insertionSort (by omega) hsub
  · intro ht hsub
    rw [sortShops_oldest]
    exact List.pair_sublist_insertionSort (by omega) hsub

/-- Witness for C8 at a concrete input: two distinct shops with the same
title keep their relative order under the `az` sort. -/
theorem claim_C8_sorting_witness :
    (exTitleShop "Same").title = ({ exTitleShop "Same" with id := "2" } : Shop).title ∧
    List.Sublist [exTitleShop "Same", { exTitleShop "Same" with id := "2" }]
      (sortShops "az" [exTitleShop "Same", { exTitleShop "Same" with id := "2" }]) :=
  ⟨rfl,
    (claim_C8_sorting [exTitleShop "Same", { exTitleShop "Same" with id := "2" }]
      (exTitleShop "Same") { exTitleShop "Same" with id := "2" }).2.2.2.2.2.2.2.2.1
      rfl (List.Sublist.refl _)⟩

/-- C3 counterexample: a dataset cache entry whose age is exactly the TTL
(`now - fetchedAt = shopsCacheTtlMs`) is NOT treated as fresh by
`isFreshCache` (which uses a strict `<`), contradicting the claim that for
both caches an entry of age exactly TTL is still fresh/served. -/
theorem claim_C3_counterexample :
    isFreshCache { payload := some default, fetchedAt := 1 } (1 + shopsCacheTtlMs) = false := by
  decide

/-- C3 (amended): staleness is a function of the current time and
`fetchedAt` only, but the freshness boundary differs between the caches:
a valid screenshot cache entry is returned iff `now - fetchedAt ≤ ttl`
(age exactly TTL is still served), while the dataset cache is fresh iff
`now - fetchedAt < ttl` (age exactly TTL is already stale). -/
theorem claim_C3_freshness (m : RawMeta) (bin : List Nat) (nowS f : Int)
    (c : ShopsCache) (nowD : Int)
    (h1 : m.fetchedAt.truthy = true) (h2 : m.contentType.truthy = true)
    (h3 : strStartsWith (jsToLower (jsStringOf m.contentType)) "image/" = true)
    (h4 : jsToNumber m.fetchedAt = some f)
    (hp : c.payload.isSome = true) (hf : c.fetchedAt ≠ 0) :
    (readCacheEntry { meta := some m, bin := some bin } nowS = some (m.contentType, bin) ↔
      nowS - f ≤ screenshotTtlMs) ∧
    (isFreshCache c nowD = true ↔ nowD - c.fetchedAt < shopsCacheTtlMs) := by
  constructor
  · have hred : readCacheEntry { meta := some m, bin := some bin } nowS =
        if nowS - f > screenshotTtlMs then none else some (m.contentType, bin) := by
      simp [readCacheEntry, h1, h2, h3, h4]
    rw [hred]
    split_ifs with h5
    · simp only [iff_iff_implies_and_implies]
      constructor
      · intro h
        simp at h
      · intro h
        omega
    · simp only [Option.some.injEq, Prod.mk.injEq, true_and]
      constructor
      · intro _
        omega
      · intro _
        simp
  · cases hcp : c.payload with
    | none =>
      rw [hcp] at hp
      simp at hp
    | some p =>
      simp [isFreshCache, hcp, hf]

/-- Witness for C3 at concrete inputs: a screenshot entry aged exactly the
TTL is still returned, and a dataset entry aged 7 is fresh against the
300000 ms TTL. -/
theorem claim_C3_freshness_witness :
    (readCacheEntry exampleArtifacts (5 + screenshotTtlMs) =
        some (JsField.str "image/png", [7, 8]) ↔
      5 + screenshotTtlMs - 5 ≤ screenshotTtlMs) ∧
    (isFreshCache exampleShopsCache 10 = true ↔ 10 - 3 < shopsCacheTtlMs) :=
  claim_C3_freshness exampleMeta [7, 8] (5 + screenshotTtlMs) 5 exampleShopsCache 10
    (by decide) (by decide) (by decide) rfl rfl (by decide)

/-- C4: the screenshot cache `get` (`readCacheEntry`) returns absent
(`none`, never throwing: it is a total function) whenever the metadata is
unreadable/unparsable, the payload is unreadable, the metadata lacks a
truthy `fetchedAt` or `contentType`, the content type is not an
`image/...` media type, the numeric age is not finite, or the age exceeds
the TTL; and on a valid entry within TTL it returns the stored content
type and body unchanged. -/
theorem claim_C4_cache_get_soft (file : CacheArtifacts) (now : Int) :
    (file.meta = none → readCacheEntry file now = none) ∧
    (file.bin = none → readCacheEntry file now = none) ∧
    (∀ m, file.meta = some m → m.fetchedAt.truthy = false →
      readCacheEntry file now = none) ∧
    (∀ m, file.meta = some m → m.contentType.truthy = false →
      readCacheEntry file now = none) ∧
    (∀ m, file.meta = some m →
      strStartsWith (jsToLower (jsStringOf m.contentType)) "image/" = false →
      readCacheEntry file now = none) ∧
    (∀ m, file.meta = some m → jsToNumber m.fetchedAt = none →
      readCacheEntry file now = none) ∧
    (∀ m f, file.meta = some m → jsToNumber m.fetchedAt = some f →
      now - f > screenshotTtlMs → readCacheEntry file now = none) ∧
    (∀ m bin f, file.meta = some m → file.bin = some bin →
      m.fetchedAt.truthy = true → m.contentType.truthy = true →
      strStartsWith (jsToLower (jsStringOf m.contentType)) "image/" = true →
      jsToNumber m.fetchedAt = some f → now - f ≤ screenshotTtlMs →
      readCacheEntry file now = some (m.contentType, bin)) := by
  obtain ⟨fmeta, fbin⟩ := file
  refine ⟨?_, ?_, ?_, ?_, ?_, ?_, ?_, ?_⟩
  · intro h
    subst h
    simp [readCacheEntry]
  · intro h
    subst h
    cases fmeta <;> simp [readCacheEntry]
  · intro m h ht
    subst h
    cases fbin <;> simp [readCacheEntry, ht]
  · intro m h ht
    subst h
    cases fbin <;> simp [readCacheEntry, ht]
  · intro m h ht
    subst h
    cases fbin <;> simp [readCacheEntry, ht]
  · intro m h ht
    subst h
    cases fbin <;> simp [readCacheEntry, ht]
  · intro m f h hf hage
    subst h
    cases fbin with
    | none => simp [readCacheEntry, hf]
    | some b =>
      simp [readCacheEntry, hf]
      intros
      omega
  · intro m bin f h hb h1 h2 h3 h4 h5
    subst h
    subst hb
    simp [readCacheEntry, h1, h2, h3, h4]
    omega

/-- Witness for C4 at a concrete input: a valid entry aged within the TTL
is returned unchanged. -/
theorem claim_C4_cache_get_soft_witness :
    readCacheEntry exampleArtifacts 6 = some (JsField.str "image/png", [7, 8]) :=
  (claim_C4_cache_get_soft exampleArtifacts 6).2.2.2.2.2.2.2 exampleMeta [7, 8] 5
    rfl rfl (by decide) (by decide) (by decide) rfl (by decide)

/-- Skipped providers leave `lastError` untouched. -/
lemma lastErrorAfter_all_none (init : String) :
    ∀ l : List (Option FetchResult), (∀ x ∈ l, x = none) → lastErrorAfter init l = init := by
  intro l
  induction l with
  | nil => intro _; rfl
  | cons a rest ih =>
    intro h
    have ha : a = none := h a (List.mem_cons_self a rest)
    subst ha
    exact ih fun x hx => h x (List.mem_cons_of_mem _ hx)

/-- `lastError` accumulation splits over list append. -/
lemma lastErrorAfter_append (init : String) (xs ys : List (Option FetchResult)) :
    lastErrorAfter init (xs ++ ys) = lastErrorAfter (lastErrorAfter init xs) ys := by
  simp [lastErrorAfter, List.foldl_append]

/-- When every real provider attempt is rejected, the provider loop throws
the accumulated `lastError`. -/
lemma loop_all_rejected :
    ∀ (attempts : List (Option FetchResult)) (init : String),
      (∀ r : FetchResult, some r ∈ attempts → rejectionMsg r ≠ none) →
      fetchScreenshotBufferLoop init attempts =
        Except.error (lastErrorAfter init attempts)
  | [], init, _ => rfl
  | none :: rest, init, h => by
    have ih := loop_all_rejected rest init fun r hr => h r (List.mem_cons_of_mem _ hr)
    simpa [fetchScreenshotBufferLoop, lastErrorAfter] using ih
  | some r :: rest, init, h => by
    have hr : rejectionMsg r ≠ none := h r (List.mem_cons_self _ _)
    have htail : ∀ x : FetchResult, some x ∈ rest → rejectionMsg x ≠ none :=
      fun x hx => h x (List.mem_cons_of_mem _ hx)
    cases r with
    | thrown msg =>
      have ih := loop_all_rejected rest msg htail
      simpa [fetchScreenshotBufferLoop, lastErrorAfter, rejectionMsg] using ih
    | resp ok status ct body =>
      simp only [rejectionMsg] at hr
      simp only [fetchScreenshotBufferLoop, lastErrorAfter, List.foldl_cons, rejectionMsg]
      split_ifs at hr ⊢ with hc1 hc2 hc3
      · simpa [lastErrorAfter, rejectionMsg, Option.getD_some] using
          loop_all_rejected rest ("Provider failed (" ++ toString status ++ ").") htail
      · simpa [lastErrorAfter, rejectionMsg, Option.getD_some] using
          loop_all_rejected rest
            ("Provider returned non-image content (" ++ ct.getD "image/jpeg" ++ ").") htail
      · simpa [lastErrorAfter, rejectionMsg, Option.getD_some] using
          loop_all_rejected rest "Provider returned an empty image." htail
      · exact absurd rfl hr

/-- C5 counterexample: with the empty provider list the fetch fails with
exactly the generic placeholder `"Unknown screenshot error."` (there is no
rejection it could be derived from), contradicting the claim that the
failure message is never the generic placeholder. -/
theorem claim_C5_counterexample :
    fetchScreenshotBuffer [] = Except.error defaultScreenshotError := rfl

/-- C5 (amended): when every real provider attempt is rejected (and in
particular when the list is empty), `fetchScreenshotBuffer` fails with the
last recorded rejection reason: the error is the `lastError` accumulation,
which is the fixed default `"Unknown screenshot error."` when no attempt
produced a rejection, and the message of the last rejected attempt
otherwise. -/
theorem claim_C5_last_rejection (attempts : List (Option FetchResult))
    (hall : ∀ r : FetchResult, some r ∈ attempts → rejectionMsg r ≠ none) :
    fetchScreenshotBuffer attempts =
      Except.error (lastErrorAfter defaultScreenshotError attempts) ∧
    (attempts.filterMap id = [] →
      fetchScreenshotBuffer attempts = Except.error defaultScreenshotError) ∧
    (∀ pre r post, attempts = pre ++ some r :: post → (∀ x ∈ post, x = none) →
      ∃ msg, rejectionMsg r = some msg ∧
        fetchScreenshotBuffer attempts = Except.error msg) := by
  have hmain : fetchScreenshotBuffer attempts =
      Except.error (lastErrorAfter defaultScreenshotError attempts) :=
    loop_all_rejected attempts defaultScreenshotError hall
  refine ⟨hmain, ?_, ?_⟩
  · intro hnil
    have hnone : ∀ x ∈ attempts, x = none := by
      intro x hx
      have := List.filterMap_eq_nil_iff.mp hnil x hx
      simpa using this
    rw [hmain, lastErrorAfter_all_none _ _ hnone]
  · intro pre r post heq hpost
    obtain ⟨msg, hmsg⟩ := Option.ne_none_iff_exists.mp
      (hall r (by rw [heq]; exact List.mem_append_right _ (List.mem_cons_self _ _)))
    refine ⟨msg, hmsg.symm, ?_⟩
    rw [hmain, heq]
    have : lastErrorAfter defaultScreenshotError (pre ++ some r :: post) = msg := by
      have hsplit : pre ++ some r :: post = (pre ++ [some r]) ++ post := by
        simp
      rw [hsplit, lastErrorAfter_append, lastErrorAfter_all_none _ _ hpost,
        lastErrorAfter_append]
      simp [lastErrorAfter, ← hmsg]
    rw [this]

/-- Witness for C5 at a concrete input: an HTTP 500 followed by a skipped
provider and a thrown error yields the last rejection message `"boom"`. -/
theorem claim_C5_last_rejection_witness :
    fetchScreenshotBuffer exampleAttempts = Except.error "boom" := by
  have h := (claim_C5_last_rejection exampleAttempts (by
    intro r hr
    simp only [exampleAttempts, List.mem_cons, List.not_mem_nil, or_false] at hr
    rcases hr with h | h | h
    · cases h
      decide
    · cases h
    · cases h
      decide)).1
  rw [h]
  rfl

/-- One event step preserves the preloader invariant: the promise has been
resolved exactly once iff settled, and an unsettled closure always still
has its timeout pending. -/
lemma preloadStep_inv (fallbackUrl : String) (s : PreloadState) (e : ImgEvent)
    (h1 : s.resolveCount = if s.settled then 1 else 0)
    (h2 : s.settled = true ∨ s.timerActive = true) :
    ((preloadStep fallbackUrl s e).resolveCount =
      if (preloadStep fallbackUrl s e).settled then 1 else 0) ∧
    ((preloadStep fallbackUrl s e).settled = true ∨
      (preloadStep fallbackUrl s e).timerActive = true) := by
  cases e <;> simp only [preloadStep, finish] <;> split_ifs <;> simp_all

/-- The preloader invariant holds after any event sequence from any state
satisfying it. -/
lemma preload_foldl_inv (fallbackUrl : String) :
    ∀ (events : List ImgEvent) (s : PreloadState),
      s.resolveCount = (if s.settled then 1 else 0) →
      (s.settled = true ∨ s.timerActive = true) →
      ((events.foldl (preloadStep fallbackUrl) s).resolveCount =
        if (events.foldl (preloadStep fallbackUrl) s).settled then 1 else 0) ∧
      ((events.foldl (preloadStep fallbackUrl) s).settled = true ∨
        (events.foldl (preloadStep fallbackUrl) s).timerActive = true)
  | [], _, h1, h2 => ⟨h1, h2⟩
  | e :: rest, s, h1, h2 => by
    have hstep := preloadStep_inv fallbackUrl s e h1 h2
    simpa using preload_foldl_inv fallbackUrl rest (preloadStep fallbackUrl s e) hstep.1 hstep.2

/-- C9: the preloader always settles and never rejects (the executor only
ever calls `resolve`, and does so at most once): after any sequence of
browser events the promise has resolved at most once; an unsettled closure
still has its timeout pending, and the timeout firing — which the browser
guarantees within `timeoutMs` of an uncancelled `setTimeout` — settles it,
so the promise settles within `timeoutMs`; `finish` is idempotent and a
settlement attempt on a settled closure never resolves again (the first
settlement wins). -/
theorem claim_C9_preload_settles (primaryUrl fallbackUrl : String) (events : List ImgEvent) :
    (preloadRun primaryUrl fallbackUrl events).resolveCount ≤ 1 ∧
    ((preloadRun primaryUrl fallbackUrl events).settled = true ∨
      (preloadRun primaryUrl fallbackUrl events).timerActive = true) ∧
    (preloadStep fallbackUrl (preloadRun primaryUrl fallbackUrl events)
        ImgEvent.timerFires).settled = true ∧
    (∀ s : PreloadState, finish (finish s) = finish s) ∧
    ((preloadRun primaryUrl fallbackUrl events).settled = true →
      ∀ e, (preloadStep fallbackUrl (preloadRun primaryUrl fallbackUrl events) e).resolveCount =
        (preloadRun primaryUrl fallbackUrl events).resolveCount) := by
  have hinv := preload_foldl_inv fallbackUrl events (preloadInit primaryUrl) rfl (Or.inr rfl)
  have hrun : preloadRun primaryUrl fallbackUrl events =
      events.foldl (preloadStep fallbackUrl) (preloadInit primaryUrl) := rfl
  rw [hrun]
  obtain ⟨h1, h2⟩ := hinv
  refine ⟨?_, h2, ?_, ?_, ?_⟩
  · rw [h1]
    split <;> omega
  · rcases h2 with h | h <;>
      simp only [preloadStep, finish] <;> split_ifs <;> simp_all
  · intro s
    by_cases hs : s.settled = true <;> simp [finish, hs]
  · intro hset e
    cases e <;> simp only [preloadStep, finish, hset] <;> split_ifs <;> simp_all

/-- Witness for C9 at a concrete input: after a successful primary load the
closure is settled, and a late error event does not resolve again. -/
theorem claim_C9_preload_settles_witness :
    (preloadRun "p" "f" [ImgEvent.onload]).settled = true ∧
    (preloadStep "f" (preloadRun "p" "f" [ImgEvent.onload]) ImgEvent.onerror).resolveCount =
      (preloadRun "p" "f" [ImgEvent.onload]).resolveCount :=
  ⟨by decide,
    (claim_C9_preload_settles "p" "f" [ImgEvent.onload]).2.2.2.2 (by decide) ImgEvent.onerror⟩

/-- The `Set`-style first-occurrence deduplication produces a
duplicate-free list with the same members. -/
lemma jsSetDedup_aux :
    ∀ (l acc : List String), acc.Nodup →
      (l.foldl (fun acc x => if x ∈ acc then acc else acc ++ [x]) acc).Nodup ∧
      ∀ x, x ∈ l.foldl (fun acc x => if x ∈ acc then acc else acc ++ [x]) acc ↔
        (x ∈ acc ∨ x ∈ l)
  | [], acc, hacc => ⟨hacc, fun x => by simp⟩
  | a :: rest, acc, hacc => by
    simp only [List.foldl_cons]
    by_cases hmem : a ∈ acc
    · rw [if_pos hmem]
      obtain ⟨hn, hm⟩ := jsSetDedup_aux rest acc hacc
      refine ⟨hn, fun x => ?_⟩
      rw [hm x]
      constructor
      · rintro (h | h)
        · exact Or.inl h
        · exact Or.inr (List.mem_cons_of_mem _ h)
      · rintro (h | h)
        · exact Or.inl h
        · rcases List.mem_cons.mp h with rfl | h2
          · exact Or.inl hmem
          · exact Or.inr h2
    · rw [if_neg hmem]
      have hacc2 : (acc ++ [a]).Nodup := by
        simp [List.nodup_append, hacc, hmem]
      obtain ⟨hn, hm⟩ := jsSetDedup_aux rest (acc ++ [a]) hacc2
      refine ⟨hn, fun x => ?_⟩
      rw [hm x]
      simp only [List.mem_append, List.mem_singleton, List.mem_cons]
      tauto

/-- `jsSetDedup` never produces duplicates. -/
lemma jsSetDedup_nodup (l : List String) : (jsSetDedup l).Nodup :=
  (jsSetDedup_aux l [] List.nodup_nil).1

/-- `jsSetDedup` preserves membership. -/
lemma mem_jsSetDedup (l : List String) (x : String) : x ∈ jsSetDedup l ↔ x ∈ l := by
  rw [jsSetDedup, (jsSetDedup_aux l [] List.nodup_nil).2 x]
  simp

/-- `localeSort` permutes its input. -/
lemma localeSort_perm (l : List String) : (localeSort l).Perm l :=
  List.perm_insertionSort _ l

/-- `localeSort` output is ordered by the comparator relation. -/
lemma localeSort_sorted (l : List String) :
    (localeSort l).Pairwise (fun a b => localeCompare a b ≤ 0) := by
  haveI : IsTotal String (fun a b : String => localeCompare a b ≤ 0) :=
    ⟨fun x y => by
      rcases le_total x y with h | h
      · exact Or.inl ((localeCompare_le_zero _ _).mpr h)
      · exact Or.inr ((localeCompare_le_zero _ _).mpr h)⟩
  haveI : IsTrans String (fun a b : String => localeCompare a b ≤ 0) :=
    ⟨fun x y z hxy hyz => (localeCompare_le_zero _ _).mpr
      (le_trans ((localeCompare_le_zero _ _).mp hxy) ((localeCompare_le_zero _ _).mp hyz))⟩
  exact List.sorted_insertionSort (fun a b : String => localeCompare a b ≤ 0) l

/-- A nonempty trimmed string contains a non-whitespace character (its
head survived `dropWhile jsWs`). -/
lemma jsTrim_not_all_ws (t : String) (h : jsTrim t ≠ "") :
    (jsTrim t).data.all jsWs = false := by
  rw [List.all_eq_false]
  have hdata : (jsTrim t).data =
      ((t.data.dropWhile jsWs).reverse.dropWhile jsWs).reverse := rfl
  have hy : (t.data.dropWhile jsWs).reverse.dropWhile jsWs ≠ [] := by
    intro hnil
    apply h
    show (⟨((t.data.dropWhile jsWs).reverse.dropWhile jsWs).reverse⟩ : String) = ""
    rw [hnil]
    rfl
  refine ⟨((t.data.dropWhile jsWs).reverse.dropWhile jsWs).head hy, ?_, ?_⟩
  · rw [hdata]
    exact List.mem_reverse.mpr (List.head_mem hy)
  · simp [List.head_dropWhile_not jsWs (t.data.dropWhile jsWs).reverse hy]

/-- C10: every payload built by `buildShopsPayload` has `count` equal to
the length of `shops`; `categories` and `tags` are duplicate-free, contain
no empty or whitespace-only strings (no element is all-whitespace, which
for the empty string holds vacuously and is therefore excluded too), and
are sorted ascending by the locale comparator; and every shop's
`screenshot` is `/api/screenshot?u=<encodeURIComponent(url)>&sv=v3`. -/
theorem claim_C10_payload_invariants (nd : NotionData) (databaseId : String) :
    (buildShopsPayload nd databaseId).count = (buildShopsPayload nd databaseId).shops.length ∧
    (buildShopsPayload nd databaseId).categories.Nodup ∧
    (buildShopsPayload nd databaseId).tags.Nodup ∧
    (∀ s ∈ (buildShopsPayload nd databaseId).categories, s.data.all jsWs = false) ∧
    (∀ s ∈ (buildShopsPayload nd databaseId).tags, s.data.all jsWs = false) ∧
    (buildShopsPayload nd databaseId).categories.Pairwise
      (fun a b => localeCompare a b ≤ 0) ∧
    (buildShopsPayload nd databaseId).tags.Pairwise (fun a b => localeCompare a b ≤ 0) ∧
    (∀ shop ∈ (buildShopsPayload nd databaseId).shops,
      shop.screenshot =
        "/api/screenshot?u=" ++ encodeURIComponent shop.url ++ "&sv=" ++ screenshotVersion) := by
  refine ⟨rfl, ?_, ?_, ?_, ?_, localeSort_sorted _, localeSort_sorted _, ?_⟩
  · exact (localeSort_perm _).symm.nodup (jsSetDedup_nodup _)
  · exact (localeSort_perm _).symm.nodup (jsSetDedup_nodup _)
  · intro s hs
    have hs2 := (mem_jsSetDedup _ _).mp ((localeSort_perm _).mem_iff.mp hs)
    rw [List.mem_filter] at hs2
    obtain ⟨hmap, hne⟩ := hs2
    obtain ⟨shop, _, hst⟩ := List.mem_map.mp hmap
    subst hst
    exact jsTrim_not_all_ws _ (by simpa using hne)
  · intro s hs
    have hs2 := (mem_jsSetDedup _ _).mp ((localeSort_perm _).mem_iff.mp hs)
    rw [List.mem_filter] at hs2
    obtain ⟨hmap, hne⟩ := hs2
    obtain ⟨tag, _, hst⟩ := List.mem_map.mp hmap
    subst hst
    exact jsTrim_not_all_ws _ (by simpa using hne)
  · intro shop hshop
    obtain ⟨item, _, hit⟩ := List.mem_map.mp hshop
    subst hit
    rfl

/-- Witness for C10 at a concrete input: the one shop built from the
example collaborator data is in the payload and carries the expected
screenshot URL. -/
theorem claim_C10_payload_invariants_witness :
    exampleShop ∈ (buildShopsPayload exampleNotionData "db").shops ∧
    exampleShop.screenshot =
      "/api/screenshot?u=" ++ encodeURIComponent exampleShop.url ++ "&sv=" ++
        screenshotVersion :=
  ⟨by decide,
    (claim_C10_payload_invariants exampleNotionData "db").2.2.2.2.2.2.2 exampleShop
      (by decide)⟩

/-- A `getShopsPayload` call that finds the cache stale and no fetch in
flight starts a new fetch and awaits it as initiator. -/
lemma arrive_start (cid : Nat) (now : Int) (s : DatasetSys)
    (hfresh : isFreshCache s.cache now = false) (h0 : s.inflight = none) :
    arrive cid now s =
      { s with
        inflight := some s.nextFlight,
        nextFlight := s.nextFlight + 1,
        fetchesStarted := s.fetchesStarted + 1,
        waiting := { caller := cid, flight := s.nextFlight, initiator := true } :: s.waiting } := by
  simp [arrive, hfresh, h0]

/-- A `getShopsPayload` call that finds the cache stale but a fetch in
flight joins that flight without starting a new one. -/
lemma arrive_join (cid : Nat) (now : Int) (s : DatasetSys) (f : Nat)
    (hfresh : isFreshCache s.cache now = false) (hin : s.inflight = some f) :
    arrive cid now s =
      { s with waiting := { caller := cid, flight := f, initiator := false } :: s.waiting } := by
  simp [arrive, hfresh, hin]

/-- While a flight is in flight and the cache stays stale, any sequence of
arrivals only parks the callers on that same flight: the cache, the flight
id, the fetch counter and the delivered results are untouched. -/
lemma arriveAll_join :
    ∀ (arrivals : List (Nat × Int)) (s : DatasetSys) (f : Nat),
      s.inflight = some f →
      (∀ a ∈ arrivals, isFreshCache s.cache a.2 = false) →
      arriveAll arrivals s =
        { s with waiting :=
            (arrivals.map fun a =>
              ({ caller := a.1, flight := f, initiator := false } : WaitEntry)).reverse ++
              s.waiting }
  | [], s, f, hin, _ => by
    simp [arriveAll]
  | a :: rest, s, f, hin, hst => by
    have hfresh : isFreshCache s.cache a.2 = false := hst a (List.mem_cons_self _ _)
    have hstep := arrive_join a.1 a.2 s f hfresh hin
    have hrest := arriveAll_join rest
      { s with waiting := { caller := a.1, flight := f, initiator := false } :: s.waiting } f
      hin (fun x hx => hst x (List.mem_cons_of_mem _ hx))
    show arriveAll rest (arrive a.1 a.2 s) = _
    rw [hstep, hrest]
    simp

/-- The settling of the flight every parked caller awaits delivers the
flight's one outcome to each of them. -/
lemma complete_delivers (now : Int) (o : FetchOutcome) (s : DatasetSys) (f : Nat)
    (hin : s.inflight = some f) (w : WaitEntry) (hw : w ∈ s.waiting) (hwf : w.flight = f) :
    (w.caller, deliver o w.initiator) ∈ (complete now o s).results := by
  simp only [complete, hin]
  apply List.mem_append_left
  exact List.mem_map.mpr ⟨w, List.mem_filter.mpr ⟨hw, by simp [hwf]⟩, rfl⟩

/-- C1: when any nonempty batch of `getShopsPayload` calls arrives while
no fresh snapshot exists and no fetch is in flight, the first call starts
exactly one underlying `buildShopsPayload` fetch and every later call
joins that same flight instead of starting another; when the one flight
settles, every caller of the batch observes its one outcome — the same
payload on success, the same error on failure. -/
theorem claim_C1_single_flight (s₀ : DatasetSys) (arrivals : List (Nat × Int))
    (h0 : s₀.inflight = none) (hw : s₀.waiting = []) (hne : arrivals ≠ [])
    (hstale : ∀ a ∈ arrivals, isFreshCache s₀.cache a.2 = false) :
    (arriveAll arrivals s₀).fetchesStarted = s₀.fetchesStarted + 1 ∧
    (arriveAll arrivals s₀).inflight = some s₀.nextFlight ∧
    (arriveAll arrivals s₀).cache = s₀.cache ∧
    (∀ w ∈ (arriveAll arrivals s₀).waiting, w.flight = s₀.nextFlight) ∧
    (∀ now p c, c ∈ arrivals.map Prod.fst → ∃ src,
      (c, CallResult.ok p src) ∈
        (complete now (FetchOutcome.success p) (arriveAll arrivals s₀)).results) ∧
    (∀ now e c, c ∈ arrivals.map Prod.fst →
      (c, CallResult.error e) ∈
        (complete now (FetchOutcome.failure e) (arriveAll arrivals s₀)).results) := by
  obtain ⟨a, rest, rfl⟩ : ∃ a rest, arrivals = a :: rest := by
    cases arrivals with
    | nil => exact absurd rfl hne
    | cons a rest => exact ⟨a, rest, rfl⟩
  have hfresh : isFreshCache s₀.cache a.2 = false := hstale a (List.mem_cons_self _ _)
  have hstep := arrive_start a.1 a.2 s₀ hfresh h0
  set s₁ : DatasetSys :=
    { s₀ with
      inflight := some s₀.nextFlight,
      nextFlight := s₀.nextFlight + 1,
      fetchesStarted := s₀.fetchesStarted + 1,
      waiting := { caller := a.1, flight := s₀.nextFlight, initiator := true } :: s₀.waiting }
    with hs₁
  have hall : arriveAll (a :: rest) s₀ =
      { s₁ with waiting :=
          (rest.map fun x =>
            ({ caller := x.1, flight := s₀.nextFlight, initiator := false } : WaitEntry)).reverse ++
            s₁.waiting } := by
    show arriveAll rest (arrive a.1 a.2 s₀) = _
    rw [hstep]
    exact arriveAll_join rest s₁ s₀.nextFlight rfl
      (fun x hx => hstale x (List.mem_cons_of_mem _ hx))
  have hwaitmem : ∀ c, c ∈ (a :: rest).map Prod.fst →
      ∃ w : WaitEntry, w ∈ (arriveAll (a :: rest) s₀).waiting ∧
        w.caller = c ∧ w.flight = s₀.nextFlight := by
    intro c hc
    rcases List.mem_cons.mp hc with rfl | hc2
    · refine ⟨{ caller := a.1, flight := s₀.nextFlight, initiator := true }, ?_, rfl, rfl⟩
      rw [hall]
      apply List.mem_append_right
      rw [hs₁, hw]
      exact List.mem_cons_self _ _
    · obtain ⟨x, hx, hxc⟩ := List.mem_map.mp hc2
      refine ⟨{ caller := c, flight := s₀.nextFlight, initiator := false }, ?_, rfl, rfl⟩
      rw [hall]
      apply List.mem_append_left
      rw [List.mem_reverse]
      exact List.mem_map.mpr ⟨x, hx, by rw [hxc]⟩
  refine ⟨?_, ?_, ?_, ?_, ?_, ?_⟩
  · rw [hall]
  · rw [hall]
  · rw [hall]
  · intro w hwmem
    rw [hall] at hwmem
    rcases List.mem_append.mp hwmem with h | h
    · rw [List.mem_reverse] at h
      obtain ⟨x, _, hxw⟩ := List.mem_map.mp h
      rw [← hxw]
    · rw [hs₁, hw] at h
      rcases List.mem_cons.mp h with rfl | h2
      · rfl
      · exact absurd h2 (List.not_mem_nil w)
  · intro now p c hc
    obtain ⟨w, hwmem, hwc, hwf⟩ := hwaitmem c hc
    refine ⟨if w.initiator then "notion-refresh" else "memory-inflight", ?_⟩
    have := complete_delivers now (FetchOutcome.success p) (arriveAll (a :: rest) s₀)
      s₀.nextFlight (by rw [hall]) w hwmem hwf
    simpa [deliver, hwc] using this
  · intro now e c hc
    obtain ⟨w, hwmem, hwc, hwf⟩ := hwaitmem c hc
    have := complete_delivers now (FetchOutcome.failure e) (arriveAll (a :: rest) s₀)
      s₀.nextFlight (by rw [hall]) w hwmem hwf
    simpa [deliver, hwc] using this

/-- Witness for C1 at a concrete input: two concurrent calls against a
stale cache start exactly one fetch, and both observe the one flight's
failure. -/
theorem claim_C1_single_flight_witness :
    (arriveAll [(1, 3 + shopsCacheTtlMs), (2, 3 + shopsCacheTtlMs)]
        exampleDatasetSys).fetchesStarted = exampleDatasetSys.fetchesStarted + 1 ∧
    (1, CallResult.error "err") ∈
      (complete (3 + shopsCacheTtlMs) (FetchOutcome.failure "err")
        (arriveAll [(1, 3 + shopsCacheTtlMs), (2, 3 + shopsCacheTtlMs)]
          exampleDatasetSys)).results ∧
    (2, CallResult.error "err") ∈
      (complete (3 + shopsCacheTtlMs) (FetchOutcome.failure "err")
        (arriveAll [(1, 3 + shopsCacheTtlMs), (2, 3 + shopsCacheTtlMs)]
          exampleDatasetSys)).results := by
  have h := claim_C1_single_flight exampleDatasetSys
    [(1, 3 + shopsCacheTtlMs), (2, 3 + shopsCacheTtlMs)] rfl rfl (by simp) (by decide)
  exact ⟨h.1, h.2.2.2.2.2 (3 + shopsCacheTtlMs) "err" 1 (by decide),
    h.2.2.2.2.2 (3 + shopsCacheTtlMs) "err" 2 (by decide)⟩

/-- C2: when the one dataset refresh a stale-cache call starts fails, the
caller's `getShopsPayload` rejects with that error and the cache slot is
left untouched (`fetchedAt` is not reset); the `/api/shops` catch block
then serves the old snapshot as a 200 tagged `memory-stale-on-error` when
one exists and propagates a 500 with the error details when none does; and
because the slot was not refreshed, the cache is still stale at any later
time, so a subsequent call starts a new refresh instead of treating the
stale data as current. -/
theorem claim_C2_stale_on_error (s₀ : DatasetSys) (c c₂ : Nat) (t t₂ now : Int) (e : String)
    (h0 : s₀.inflight = none) (hw : s₀.waiting = [])
    (hstale : isFreshCache s₀.cache t = false) (hmono : t ≤ t₂) :
    (c, CallResult.error e) ∈
      (complete now (FetchOutcome.failure e) (arrive c t s₀)).results ∧
    (complete now (FetchOutcome.failure e) (arrive c t s₀)).cache = s₀.cache ∧
    (∀ p, s₀.cache.payload = some p →
      apiShopsRespond (CallResult.error e)
          (complete now (FetchOutcome.failure e) (arrive c t s₀)).cache =
        ShopsHttpResponse.okJson p "memory-stale-on-error") ∧
    (s₀.cache.payload = none →
      apiShopsRespond (CallResult.error e)
          (complete now (FetchOutcome.failure e) (arrive c t s₀)).cache =
        ShopsHttpResponse.error500 e) ∧
    isFreshCache (complete now (FetchOutcome.failure e) (arrive c t s₀)).cache t₂ = false ∧
    (arrive c₂ t₂ (complete now (FetchOutcome.failure e) (arrive c t s₀))).fetchesStarted =
      (complete now (FetchOutcome.failure e) (arrive c t s₀)).fetchesStarted + 1 := by
  have hstep := arrive_start c t s₀ hstale h0
  have hfull : complete now (FetchOutcome.failure e) (arrive c t s₀) =
      { s₀ with
        inflight := none,
        nextFlight := s₀.nextFlight + 1,
        fetchesStarted := s₀.fetchesStarted + 1,
        waiting := [],
        results := (c, CallResult.error e) :: s₀.results } := by
    rw [hstep, hw]
    simp [complete, deliver]
  have hstale2 : isFreshCache s₀.cache t₂ = false := by
    unfold isFreshCache at hstale ⊢
    split_ifs at hstale ⊢ with h
    · rfl
    · simp only [decide_eq_false_iff_not] at hstale ⊢
      omega
  refine ⟨?_, ?_, ?_, ?_, ?_, ?_⟩
  · rw [hfull]
    exact List.mem_cons_self _ _
  · rw [hfull]
  · intro p hp
    rw [hfull]
    show apiShopsRespond (CallResult.error e) s₀.cache = _
    simp [apiShopsRespond, hp]
  · intro hp
    rw [hfull]
    show apiShopsRespond (CallResult.error e) s₀.cache = _
    simp [apiShopsRespond, hp]
  · rw [hfull]
    exact hstale2
  · rw [hfull]
    simp [arrive, hstale2]

/-- Witness for C2 at a concrete input: after the refresh fails against a
stale slot that still holds an old payload, the handler serves that
payload tagged `memory-stale-on-error`, and a later call starts a new
fetch. -/
theorem claim_C2_stale_on_error_witness :
    apiShopsRespond (CallResult.error "err")
        (complete (3 + shopsCacheTtlMs) (FetchOutcome.failure "err")
          (arrive 1 (3 + shopsCacheTtlMs) exampleDatasetSys)).cache =
      ShopsHttpResponse.okJson default "memory-stale-on-error" ∧
    (arrive 2 (4 + shopsCacheTtlMs)
        (complete (3 + shopsCacheTtlMs) (FetchOutcome.failure "err")
          (arrive 1 (3 + shopsCacheTtlMs) exampleDatasetSys))).fetchesStarted =
      (complete (3 + shopsCacheTtlMs) (FetchOutcome.failure "err")
        (arrive 1 (3 + shopsCacheTtlMs) exampleDatasetSys)).fetchesStarted + 1 := by
  have h := claim_C2_stale_on_error exampleDatasetSys 1 2 (3 + shopsCacheTtlMs)
    (4 + shopsCacheTtlMs) (3 + shopsCacheTtlMs) "err" rfl rfl (by decide) (by decide)
  exact ⟨h.2.2.1 default rfl, h.2.2.2.2.2⟩

end ShopHaul
